import Mathlib

/-!
Shallow embedding of `dbcParser.py` (a CAN DBC file parser) and proofs about it.

The Python module defines three classes, `CANDatabase`, `CANMessage` and
`CANSignal`, a module-level compiled regular expression used to parse signal
lines, and a custom quote-aware tokenizer `valueLineSplit`.  `CANDatabase.Load`
drives a single forward pass over the source lines.

Modelling conventions:
  - A line of the source file is a `String` (with the trailing newline already
    removed, matching `line.rstrip('\n')` in `Load`).
  - Python's class-level default containers (`CANDatabase._messages`,
    `_txNodes`, `_attributes`, `_iter_index`) are a single shared state
    `DBState` threaded explicitly; `CANDatabase.__init__` only stores the
    path and does not touch these containers, exactly as in the source.
  - Fallible Python operations (list indexing, `int(...)`) are embedded with
    `Option`; an uncaught Python exception surfaces as `LoadResult.exn`.
    `Load` returning `None` after printing the invalid-value diagnostic is
    `LoadResult.valNone` carrying the diagnostic text.
  - The signal-line regular expression is embedded as a small backtracking
    matcher (`rmatch`) over the exact element sequence of the pattern, with
    Python's greedy longest-first backtracking order.
-/

set_option maxRecDepth 4000

/-- Python `\s` for the characters relevant to a single line. -/
def isPySpace (c : Char) : Bool :=
  c = ' ' || c = '\t' || c = '\n' || c = '\r' || c = '\x0b' || c = '\x0c'

/-- Boolean list-prefix test, used to embed Python's `str.startswith`. -/
def listIsPrefix : List Char → List Char → Bool
  | [], _ => true
  | _ :: _, [] => false
  | a :: as, b :: bs => if a = b then listIsPrefix as bs else false

/-- Python `line.startswith(pre)`. -/
def pyStartsWith (line pre : String) : Bool :=
  listIsPrefix pre.toList line.toList

/-- Auxiliary recursion for `pySplit`: Python `str.split(sep)` with a single
character separator keeps empty fields and always emits the final field. -/
def pySplitGo (sep : Char) : List Char → List Char → List String
  | [], part => [part.asString]
  | c :: cs, part => if c = sep then part.asString :: pySplitGo sep cs [] else pySplitGo sep cs (part ++ [c])

/-- Python `s.split(sep)` for a one-character separator. -/
def pySplit (sep : Char) (s : String) : List String :=
  pySplitGo sep s.toList []

/-- Python `s.strip(c)`: remove leading and trailing runs of the character. -/
def pyStrip (c : Char) (s : String) : String :=
  (((s.toList.dropWhile (· = c)).reverse.dropWhile (· = c)).reverse).asString

/-- Python `s.rstrip(c)`: remove the trailing run of the character. -/
def pyRstrip (c : Char) (s : String) : String :=
  ((s.toList.reverse.dropWhile (· = c)).reverse).asString

/-- Decimal digit run to a number; `none` on an empty or non-digit run. -/
def digitsToNat? : List Char → Option Nat
  | [] => none
  | cs => cs.foldlM (fun acc c => if c.isDigit then some (acc * 10 + (c.toNat - 48)) else none) 0

/-- Hexadecimal digit value of one character. -/
def hexVal? (c : Char) : Option Nat :=
  if c.isDigit then some (c.toNat - 48)
  else if 'a' ≤ c && c ≤ 'f' then some (c.toNat - 87)
  else if 'A' ≤ c && c ≤ 'F' then some (c.toNat - 55)
  else none

/-- Hexadecimal digit run to a number; `none` on an empty or non-hex run. -/
def hexDigitsToNat? : List Char → Option Nat
  | [] => none
  | cs => cs.foldlM (fun acc c => (hexVal? c).map fun v => acc * 16 + v) 0

/-- Python `int(s)`: optional surrounding whitespace, optional sign, then a
nonempty run of decimal digits; `none` models an uncaught `ValueError`. -/
def pyInt? (s : String) : Option Int :=
  let t := (s.toList.dropWhile isPySpace).reverse.dropWhile isPySpace |>.reverse
  match t with
  | '+' :: ds => (digitsToNat? ds).map Int.ofNat
  | '-' :: ds => (digitsToNat? ds).map fun n => -(n : Int)
  | ds => (digitsToNat? ds).map Int.ofNat

/-- Python `int(s, 16)` for the forms appearing in DBC files: optional
whitespace, optional sign, then a nonempty run of hexadecimal digits. -/
def pyIntHex? (s : String) : Option Int :=
  let t := (s.toList.dropWhile isPySpace).reverse.dropWhile isPySpace |>.reverse
  match t with
  | '+' :: ds => (hexDigitsToNat? ds).map Int.ofNat
  | '-' :: ds => (hexDigitsToNat? ds).map fun n => -(n : Int)
  | ds => (hexDigitsToNat? ds).map Int.ofNat

/-- One `CANSignal` object (class `CANSignal`, fields in the order the
constructor assigns them). -/
structure CANSignal where
  _name : String
  _type : String
  _format : Int
  _startbit : Int
  _length : Int
  _offset : Int
  _factor : Int
  _minVal : Int
  _maxVal : Int
  _units : String
  _values : List (Int × String)
  _comment : String
  _rx_nodes : List String
deriving DecidableEq, Repr

/-- One `CANMessage` object (class `CANMessage`; `_idType` is always `None`
in the source and `_iter_index` of a message is reset by `__iter__`, so
neither is observable and neither is carried here). -/
structure CANMessage where
  _canID : Int
  _name : String
  _dlc : Int
  _txNode : String
  _comment : String
  _signals : List CANSignal
  _attributes : List (String × String)
  _subscribers : List String
deriving DecidableEq, Repr

/-- The class-level shared containers of `CANDatabase` plus the persistent
iteration index.  These are class attributes in the source, so every
`CANDatabase` instance aliases the same underlying lists; the embedding makes
that sharing explicit by threading one `DBState` through all operations. -/
structure DBState where
  _messages : List CANMessage
  _txNodes : List String
  _attributes : List (String × String × String × String)
  _iter_index : Nat
deriving DecidableEq, Repr

/-- The class-attribute defaults: all containers empty, index 0. -/
def initState : DBState :=
  { _messages := [], _txNodes := [], _attributes := [], _iter_index := 0 }

/-- A `CANDatabase` instance owns only its path; `__init__` (lines 37-44)
assigns `self._dbcPath` and nothing else, so the container-typed fields remain
the shared class-level defaults modelled by `DBState`. -/
structure CANDatabase where
  _dbcPath : String
deriving DecidableEq, Repr

/-- Accessor `CANDatabase.Messages` reads the shared class-level message list: every
instance observes the same `DBState`. -/
def CANDatabase.Messages (_db : CANDatabase) (σ : DBState) : List CANMessage :=
  σ._messages

/-- Elements of the compiled signal-line pattern `__regex_pattern__`
(dbcParser.py line 19): literal text, a greedy `.*` capture, a greedy
`[0-9]{1,2}` capture, a one-character class capture, and a greedy
`(\s{1,2})` capture. -/
inductive RTok where
  | lit : List Char → RTok
  | star : RTok
  | digits12 : RTok
  | cls : List Char → RTok
  | spaces12 : RTok
deriving DecidableEq, Repr

/-- Backtracking matcher for a sequence of pattern elements against the
character list of a line, anchored at the start like `re.match`.  Greedy
elements try their longest alternative first, exactly as Python's engine
does, and the captures of all elements are returned in order.  An exhausted
pattern succeeds with input left over (`re.match` only matches a prefix). -/
def rmatch : List RTok → List Char → Option (List String)
  | [], _ => some []
  | .lit p :: rest, cs =>
      if listIsPrefix p cs then rmatch rest (cs.drop p.length) else none
  | .star :: rest, cs =>
      (List.range (cs.length + 1)).reverse.findSome? fun k =>
        (rmatch rest (cs.drop k)).map fun caps => (cs.take k).asString :: caps
  | .digits12 :: rest, c1 :: c2 :: cs =>
      if c1.isDigit then
        if c2.isDigit then
          match rmatch rest cs with
          | some caps => some ([c1, c2].asString :: caps)
          | none => (rmatch rest (c2 :: cs)).map fun caps => [c1].asString :: caps
        else (rmatch rest (c2 :: cs)).map fun caps => [c1].asString :: caps
      else none
  | .digits12 :: rest, [c1] =>
      if c1.isDigit then (rmatch rest []).map fun caps => [c1].asString :: caps else none
  | .digits12 :: _, [] => none
  | .cls chars :: rest, c :: cs =>
      if chars.contains c then (rmatch rest cs).map fun caps => [c].asString :: caps else none
  | .cls _ :: _, [] => none
  | .spaces12 :: rest, c1 :: c2 :: cs =>
      if isPySpace c1 then
        if isPySpace c2 then
          match rmatch rest cs with
          | some caps => some ([c1, c2].asString :: caps)
          | none => (rmatch rest (c2 :: cs)).map fun caps => [c1].asString :: caps
        else (rmatch rest (c2 :: cs)).map fun caps => [c1].asString :: caps
      else none
  | .spaces12 :: rest, [c1] =>
      if isPySpace c1 then (rmatch rest []).map fun caps => [c1].asString :: caps else none
  | .spaces12 :: _, [] => none
termination_by structural toks _ => toks

/-- The element sequence of `__regex_pattern__`, read off line 19 of the
source.  Captures, in order: name, start_bit, length, format, type, factor,
offset, min, max, unit, the anonymous space group, rx_nodes. -/
def sigPattern : List RTok :=
  [ .lit (" SG_ ".toList), .star, .lit (" : ".toList), .digits12,
    .lit ("|".toList), .digits12, .lit ("@".toList), .cls ['0', '1'],
    .cls ['+', '-'], .lit (" (".toList), .star, .lit (",".toList), .star,
    .lit (") [".toList), .star, .lit ("|".toList), .star,
    .lit ("] \"".toList), .star, .lit ("\"".toList), .spaces12, .star ]

/-- Python errors that can propagate uncaught out of `Load`. -/
inductive PyErr where
  | indexError : PyErr
  | valueError : PyErr
  | attributeError : PyErr
deriving DecidableEq, Repr

/-- Embeds `CANDatabase._parseSignalEntry` (lines 204-226): match the signal line
against `__regex_pattern__` and convert the numeric groups with `int`.
A failed match is Python's `AttributeError` (calling `.group` on `None`);
a failed `int` conversion is a `ValueError`. -/
def parseSignalEntry (line : String) : Except PyErr CANSignal :=
  match rmatch sigPattern line.toList with
  | some [nm, sb, ln, fm, ty, fa, off, mn, mx, un, _sp, rx] =>
    match pyInt? sb, pyInt? ln, pyInt? fm, pyInt? fa, pyInt? off, pyInt? mn, pyInt? mx with
    | some sbv, some lnv, some fmv, some fav, some offv, some mnv, some mxv =>
      .ok { _name := nm, _type := ty, _format := fmv, _startbit := sbv,
            _length := lnv, _offset := offv, _factor := fav, _minVal := mnv,
            _maxVal := mxv, _units := un, _values := [], _comment := "",
            _rx_nodes := pySplit ',' rx }
    | _, _, _, _, _, _, _ => .error .valueError
  | _ => .error .attributeError

/-- Embeds `CANDatabase._parseMessageHeader` (lines 192-202): split on single spaces
and read id, name, dlc and transmitter; a missing token is an `IndexError`
and a failed `int` a `ValueError`. -/
def parseMessageHeader (line : String) : Except PyErr CANMessage :=
  let items := pySplit ' ' line
  match items.get? 1 with
  | none => .error .indexError
  | some i1 =>
    match pyInt? i1 with
    | none => .error .valueError
    | some mid =>
      match items.get? 2 with
      | none => .error .indexError
      | some i2 =>
        match items.get? 3 with
        | none => .error .indexError
        | some i3 =>
          match pyInt? i3 with
          | none => .error .valueError
          | some dlc =>
            match items.get? 4 with
            | none => .error .indexError
            | some i4 =>
              .ok { _canID := mid, _name := pyRstrip ':' i2, _dlc := dlc,
                    _txNode := pyRstrip '\n' i4, _comment := "", _signals := [],
                    _attributes := [], _subscribers := [] }

/-- Embeds `CANDatabase._parseTransmittingNodes` (lines 178-190): every
space-separated token other than the literal `BU_:` is appended to the shared
transmitting-node list. -/
def parseTransmittingNodes (σ : DBState) (line : String) : DBState :=
  { σ with _txNodes := σ._txNodes ++ ((pySplit ' ' line).filter fun t => t ≠ "BU_:") }

/-- Embeds `valueLineSplit` (lines 393-413): quote-aware splitter.  A space outside
quotes closes the current part; a quote toggles quote mode and is dropped;
every other character extends the current part.  Note that the part still
open when the line ends is never appended. -/
def valueLineSplitGo : List Char → List Char → Bool → List String
  | [], _, _ => []
  | ch :: cs, part, in_quotes =>
    if ch = ' ' && !in_quotes then part.asString :: valueLineSplitGo cs [] in_quotes
    else if ch = '"' && !in_quotes then valueLineSplitGo cs part true
    else if ch = '"' && in_quotes then valueLineSplitGo cs part false
    else valueLineSplitGo cs (part ++ [ch]) in_quotes

/-- The tokenizer `valueLineSplit` applied to a whole line. -/
def valueLineSplit (line : String) : List String :=
  valueLineSplitGo line.toList [] false

/-- Embeds `CANMessage.AddSignal` (lines 267-272). -/
def CANMessage.AddSignal (m : CANMessage) (s : CANSignal) : CANMessage :=
  { m with _signals := m._signals ++ [s] }

/-- Embeds `CANSignal.SetValues` (lines 370-375). -/
def CANSignal.SetValues (s : CANSignal) (v : List (Int × String)) : CANSignal :=
  { s with _values := v }

/-- Embeds `CANSignal.AddComment` (lines 383-384). -/
def CANSignal.AddComment (s : CANSignal) (c : String) : CANSignal :=
  { s with _comment := c }

/-- Replace the first signal whose `Name()` equals `nm` by `f` of it, leaving
the rest untouched: the `for signal in self: ... break` lookup pattern used by
`CANMessage.AddValue` and the comment branch of `Load`. -/
def applyFirst (nm : String) (f : CANSignal → CANSignal) : List CANSignal → List CANSignal
  | [] => []
  | s :: rest => if s._name = nm then f s :: rest else s :: applyFirst nm f rest

/-- Embeds `CANMessage.AddValue` (lines 294-302): give the value pairs of the tuple
to the first signal whose name equals the tuple's first component. -/
def CANMessage.AddValue (m : CANMessage) (vt : String × Int × List (Int × String)) : CANMessage :=
  { m with _signals := applyFirst vt.1 (fun s => s.SetValues vt.2.2) m._signals }

/-- Embeds `CANMessage.AddAttribute` (lines 304-309). -/
def CANMessage.AddAttribute (m : CANMessage) (a : String × String) : CANMessage :=
  { m with _attributes := m._attributes ++ [a] }

/-- The comment branch of `Load` (lines 153-159) on one message: set the
comment of the first signal named `nm`. -/
def CANMessage.addSignalComment (m : CANMessage) (nm : String) (c : String) : CANMessage :=
  { m with _signals := applyFirst nm (fun s => s.AddComment c) m._signals }

/-- The dedup-insert step of `CANMessage.UpdateSubscribers` (lines 330-332):
append a node name unless it is already present. -/
def subsStep (acc : List String) (n : String) : List String :=
  if n ∈ acc then acc else acc ++ [n]

/-- Embeds `CANMessage.UpdateSubscribers` (lines 323-334): fold over the signals and,
for each, over its receiving nodes, appending unseen node names to the
existing `_subscribers` list. -/
def CANMessage.UpdateSubscribers (m : CANMessage) : CANMessage :=
  { m with _subscribers := m._signals.foldl (fun acc s => s._rx_nodes.foldl subsStep acc) m._subscribers }

/-- Search a message-list suffix for the first message with the given CAN id,
returning its offset and the message: the body of the `for message in self:`
lookup loops in `Load` (lines 117-120 and 142-145). -/
def scanFrom (id : Int) : List CANMessage → Option (Nat × CANMessage)
  | [] => none
  | m :: rest =>
    if m._canID = id then some (0, m)
    else (scanFrom id rest).map fun p => (p.1 + 1, p.2)

/-- One `for message in self: if message.CANID() == id: upd; break` loop.
`CANDatabase.__iter__` (lines 46-50) returns `self` without resetting
`_iter_index`, so the scan starts at the current index; a hit updates the
message in place and leaves the index just past it (`__next__` incremented it
before the body ran); exhaustion resets the index to 0 (lines 56-58). -/
def lookupAttach (σ : DBState) (id : Int) (upd : CANMessage → CANMessage) : DBState :=
  match scanFrom id (σ._messages.drop σ._iter_index) with
  | none => { σ with _iter_index := 0 }
  | some (j, m) =>
    { σ with _messages := σ._messages.set (σ._iter_index + j) (upd m),
             _iter_index := σ._iter_index + j + 1 }

/-- Outcome of the pair-building loop of the `VAL_` branch (lines 106-115):
either the list of (value, name) pairs, or an uncaught `ValueError` from
`int(pairs[i])`, or the caught `IndexError` from `pairs[i+1]` when the pair
tokens run out (an odd number of pair tokens). -/
inductive PairsResult where
  | ok : List (Int × String) → PairsResult
  | intFail : PairsResult
  | short : PairsResult
deriving DecidableEq, Repr

/-- The pair-building loop of the `VAL_` branch: `int(pairs[i])` is evaluated
before `pairs[i+1]`, so a non-integer token at an even position fails with
`ValueError` even when the name token is also missing. -/
def buildPairs : List String → PairsResult
  | [] => .ok []
  | [v] =>
    match pyInt? v with
    | none => .intFail
    | some _ => .short
  | v :: nm :: rest =>
    match pyInt? v with
    | none => .intFail
    | some x =>
      match buildPairs rest with
      | .ok l => .ok ((x, nm) :: l)
      | r => r

/-- Result of `CANDatabase.Load`: `ok` is `return self` with the shared state
as mutated; `valNone` is the `return None` of the `VAL_` branch, carrying the
printed diagnostic; `exn` is an uncaught Python exception, carrying the shared
state at the moment it was raised. -/
inductive LoadResult where
  | ok : DBState → LoadResult
  | valNone : String → DBState → LoadResult
  | exn : PyErr → DBState → LoadResult
deriving DecidableEq, Repr

/-- The shared class-level state carried by any `Load` outcome. -/
def stateOf : LoadResult → DBState
  | .ok σ => σ
  | .valNone _ σ => σ
  | .exn _ σ => σ

/-- Effect of one source line on the loop state of `Load`: either continue
with new shared state, building flag and message under construction, or stop
the whole load with a result. -/
inductive Step where
  | cont : DBState → Bool → Option CANMessage → Step
  | halt : LoadResult → Step
deriving DecidableEq, Repr

/-- The `BU_:` branch of `Load` (lines 81-82). -/
def buStep (σ : DBState) (b : Bool) (cm : Option CANMessage) (line : String) : Step :=
  .cont (parseTransmittingNodes σ line) b cm

/-- The `BO_` branch of `Load` (lines 84-86): a new message under
construction; a message already being built is silently discarded. -/
def boStep (σ : DBState) (line : String) : Step :=
  match parseMessageHeader line with
  | .error e => .halt (.exn e σ)
  | .ok m => .cont σ true (some m)

/-- The ` SG_` branch of `Load` (lines 88-89), taken only while building. -/
def sgStep (σ : DBState) (b : Bool) (cm : Option CANMessage) (line : String) : Step :=
  match cm with
  | none => .halt (.exn .attributeError σ)
  | some m =>
    match parseSignalEntry line with
    | .error e => .halt (.exn e σ)
    | .ok sig => .cont σ b (some (m.AddSignal sig))

/-- The blank-line branch of `Load` (lines 91-96): while building, append the
message to the shared list, compute its subscribers once, and return to the
idle state; otherwise a no-op. -/
def blankStep (σ : DBState) (b : Bool) (cm : Option CANMessage) : Step :=
  if b then
    match cm with
    | none => .halt (.exn .attributeError σ)
    | some m => .cont { σ with _messages := σ._messages ++ [m.UpdateSubscribers] } false none
  else .cont σ b cm

/-- The `VAL_` branch of `Load` (lines 98-120): tokenize with
`valueLineSplit`, read the signal name (`[2]`) and hexadecimal message id
(`[1]`), build the value pairs, and on success look the message up through the
persistent iterator and attach the tuple. -/
def valStep (σ : DBState) (b : Bool) (cm : Option CANMessage) (n : Nat) (line : String) : Step :=
  let comps := valueLineSplit line
  match comps.get? 2 with
  | none => .halt (.exn .indexError σ)
  | some nm =>
    match comps.get? 1 with
    | none => .halt (.exn .indexError σ)
    | some hid =>
      match pyIntHex? hid with
      | none => .halt (.exn .valueError σ)
      | some canid =>
        match buildPairs (comps.drop 3) with
        | .intFail => .halt (.exn .valueError σ)
        | .short => .halt (.valNone ("Invalid value: " ++ nm ++ ". Found on line " ++ toString n ++ ".") σ)
        | .ok prs => .cont (lookupAttach σ canid fun m => m.AddValue (nm, canid, prs)) b cm

/-- The `BA_DEF_ BO_` branch of `Load` (lines 123-132): split on single
spaces and read tokens 3-6 (the source comments that the indices are one
higher than they look because the file format has a double space), appending
the schema tuple to the shared attribute list. -/
def baDefStep (σ : DBState) (b : Bool) (cm : Option CANMessage) (line : String) : Step :=
  let comps := pySplit ' ' line
  match comps.get? 3 with
  | none => .halt (.exn .indexError σ)
  | some c3 =>
    match comps.get? 4 with
    | none => .halt (.exn .indexError σ)
    | some c4 =>
      match comps.get? 5 with
      | none => .halt (.exn .indexError σ)
      | some c5 =>
        match comps.get? 6 with
        | none => .halt (.exn .indexError σ)
        | some c6 =>
          .cont { σ with _attributes := σ._attributes ++ [(pyStrip '"' c3, c4, c5, pyRstrip ';' c6)] } b cm

/-- The `BA_ ` branch of `Load` (lines 134-145): read name (`[1]`), message
id (`[3]`) and value (`[4]`), then look the message up through the persistent
iterator and attach the attribute tuple. -/
def baStep (σ : DBState) (b : Bool) (cm : Option CANMessage) (line : String) : Step :=
  let comps := pySplit ' ' line
  match comps.get? 1 with
  | none => .halt (.exn .indexError σ)
  | some c1 =>
    match comps.get? 3 with
    | none => .halt (.exn .indexError σ)
    | some c3 =>
      match pyInt? c3 with
      | none => .halt (.exn .valueError σ)
      | some mid =>
        match comps.get? 4 with
        | none => .halt (.exn .indexError σ)
        | some c4 =>
          .cont (lookupAttach σ mid fun m => m.AddAttribute (pyStrip '"' c1, pyRstrip ';' c4)) b cm

/-- The `CM_` branch of `Load` (lines 147-160).  A line with at most two
tokens executes `break`, halting the whole scan while still returning the
model.  Otherwise the `for message in self:` loop yields at most one message
(the `break` on line 160 is unconditional): if the iterator is already
exhausted it only resets the index; otherwise the message at the current index
is examined, the index advances by one, and on an id match the comment (the
concatenation of tokens 4 onward with no delimiter) is attached to the first
signal whose name equals token 3. -/
def cmStep (σ : DBState) (b : Bool) (cm : Option CANMessage) (line : String) : Step :=
  let comps := pySplit ' ' line
  if comps.length ≤ 2 then .halt (.ok { σ with _iter_index := 0 })
  else
    if h : σ._iter_index < σ._messages.length then
      let m := σ._messages.get ⟨σ._iter_index, h⟩
      match comps.get? 2 with
      | none => .halt (.exn .indexError σ)
      | some c2 =>
        match pyInt? c2 with
        | none => .halt (.exn .valueError σ)
        | some cid =>
          if m._canID = cid then
            match comps.get? 3 with
            | none => .halt (.exn .indexError σ)
            | some c3 =>
              .cont { σ with _messages := σ._messages.set σ._iter_index (m.addSignalComment c3 (String.join (comps.drop 4))),
                             _iter_index := σ._iter_index + 1 } b cm
          else .cont { σ with _iter_index := σ._iter_index + 1 } b cm
    else .cont { σ with _iter_index := 0 } b cm

/-- Dispatch of one line of the source, in the exact order of the
`if`/`elif` chain of `Load` (lines 81-160); any unrecognized line is
ignored. -/
def processLine (σ : DBState) (b : Bool) (cm : Option CANMessage) (n : Nat) (line : String) : Step :=
  if pyStartsWith line ("BU_:") then buStep σ b cm line
  else if pyStartsWith line ("BO_") then boStep σ line
  else if pyStartsWith line (" SG_") && b then sgStep σ b cm line
  else if line = "" then blankStep σ b cm
  else if pyStartsWith line ("VAL_") then valStep σ b cm n line
  else if pyStartsWith line ("BA_DEF_ BO_") then baDefStep σ b cm line
  else if pyStartsWith line ("BA_ ") then baStep σ b cm line
  else if pyStartsWith line ("CM_") then cmStep σ b cm line
  else .cont σ b cm

/-- The line loop of `Load` (lines 73-164): `n` is the 1-based number of the
next line.  At the end of input the iteration index is reset (line 162) and
`self` is returned; a message still under construction is discarded. -/
def loadLines (σ : DBState) (b : Bool) (cm : Option CANMessage) (n : Nat) : List String → LoadResult
  | [] => .ok { σ with _iter_index := 0 }
  | line :: rest =>
    match processLine σ b cm n line with
    | .cont σ2 b2 cm2 => loadLines σ2 b2 cm2 (n + 1) rest
    | .halt r => r

/-- Embeds `CANDatabase.Load` (lines 62-164) on an already-opened source, given as
its list of lines; the `OSError` branch (lines 66-71) concerns the file
system and is outside this embedding. -/
def Load (σ : DBState) (lines : List String) : LoadResult :=
  loadLines σ false none 1 lines

/-- Projection used by several theorems: the `_values` tables of every signal
of every message of a load result. -/
def valuesView (r : LoadResult) : List (List (List (Int × String))) :=
  (stateOf r)._messages.map fun m => m._signals.map CANSignal._values

/-- Projection: the `_comment` of every signal of every message. -/
def commentsView (r : LoadResult) : List (List String) :=
  (stateOf r)._messages.map fun m => m._signals.map CANSignal._comment

/-- The receiving-node names of a signal list, concatenated in signal order:
the stream of names `UpdateSubscribers` inspects. -/
def rxConcat (sigs : List CANSignal) : List String :=
  (sigs.map CANSignal._rx_nodes).flatten

/-- Specification-side definition, following the spec's words: the union of
the receiving-node name lists in first-seen order with duplicates removed,
as a single left-to-right pass over the flattened name stream. -/
def firstSeenDedup (l : List String) : List String :=
  l.foldl subsStep []

/-- The subscriber invariant of a finalized message. -/
def subsOK (m : CANMessage) : Prop :=
  m._subscribers = firstSeenDedup (rxConcat m._signals)

/-- Invariant of the message under construction: its subscribers have not
been computed yet. -/
def cmSubsNil : Option CANMessage → Prop
  | none => True
  | some m => m._subscribers = []

/-- Invariant of a `Step` outcome for the subscriber property. -/
def stepSubsInv : Step → Prop
  | .cont σ _ cm => (∀ m ∈ σ._messages, subsOK m) ∧ cmSubsNil cm
  | .halt r => ∀ m ∈ (stateOf r)._messages, subsOK m

/-- Scenario line: the message header `BO_ 500 EngineData: 8 ECU`. -/
def bo500 : String := "BO_ 500 EngineData: 8 ECU"

/-- Scenario line: a valid signal line for `RPM` (start bit 0, length 16,
format 0, sign `+`, factor 1, offset 0, min 0, max 65535, unit rpm,
receivers `Dash`). -/
def sgRPM : String := " SG_ RPM : 0|16@0+ (1,0) [0|65535] \"rpm\" Dash"

/-- Scenario line: a second message header with identifier 600. -/
def bo600 : String := "BO_ 600 SpeedData: 8 ECU"

/-- Scenario line: a valid signal line for `SPD`, receiver `Dash`. -/
def sgSPD : String := " SG_ SPD : 0|16@0+ (1,0) [0|65535] \"kph\" Dash"

/-- The `CANSignal` object produced from `sgRPM`. -/
def rpmSig : CANSignal :=
  { _name := "RPM", _type := "+", _format := 0, _startbit := 0, _length := 16,
    _offset := 0, _factor := 1, _minVal := 0, _maxVal := 65535, _units := "rpm",
    _values := [], _comment := "", _rx_nodes := ["Dash"] }

/-- The finalized `CANMessage` produced from `bo500`, `sgRPM` and a blank
line. -/
def engineMsg : CANMessage :=
  { _canID := 500, _name := "EngineData", _dlc := 8, _txNode := "ECU",
    _comment := "", _signals := [rpmSig], _attributes := [], _subscribers := ["Dash"] }

/-- A `VAL_` line whose pair tokens are odd in number (the name of the last
pair is missing) but whose value tokens are integers. -/
def oddValLine : String := "VAL_ 1F4 RPM 0 \"Idle\" 1 ;"

/-- Source of the two-message scenarios: messages 500 (signal `RPM`) and 600
(signal `SPD`), both completed by blank lines. -/
def twoMsgSrc : List String := [bo500, sgRPM, "", bo600, sgSPD, ""]

/-- True exactly when `Load` returned `self` (no error, no abort). -/
def isOkResult : LoadResult → Bool
  | .ok _ => true
  | _ => false

/-- Two-message source followed by a matched `VAL_` line, an unresolved
`VAL_` line (id 0x3E8 = 1000 matches no message) and a second matched `VAL_`
line. -/
def srcWithUnresolved : List String :=
  twoMsgSrc ++ ["VAL_ 1F4 RPM 0 \"Idle\" ;", "VAL_ 3E8 XXX 0 \"Nah\" ;", "VAL_ 1F4 RPM 1 \"Run\" ;"]

/-- The same source with the unresolved `VAL_` line removed. -/
def srcWithoutUnresolved : List String :=
  twoMsgSrc ++ ["VAL_ 1F4 RPM 0 \"Idle\" ;", "VAL_ 1F4 RPM 1 \"Run\" ;"]

/-- C1: for the source `BO_ 500 EngineData: 8 ECU`, a valid `RPM` signal line
(start bit 0, length 16, format 0, sign `+`, factor 1, offset 0, min 0,
max 65535, unit rpm, receivers `Dash`) and a blank line, `Load` produces a
model with exactly one message: identifier 500, name `EngineData`, exactly
one signal named `RPM`, and subscriber set `{Dash}`. -/
theorem load_engineData_scenario :
    Load initState [bo500, sgRPM, ""] =
      .ok { _messages := [engineMsg], _txNodes := [], _attributes := [], _iter_index := 0 } := by
  decide

/-- C2, counterexample: on `BA_ "Description" BO_ 100 "Has spaces";` the
tokenizer does not return the five claimed tokens, because the part still
open when the line ends (`Has spaces;`) is never appended. -/
theorem valueLineSplit_drops_last_token :
    valueLineSplit ("BA_ \"Description\" BO_ 100 \"Has spaces\";") ≠
      ["BA_", "Description", "BO_", "100", "Has spaces;"] := by
  decide

/-- C2, amended: the tokenizer returns only the four tokens closed by a
space; quotes are stripped and the quoted run keeps its embedded space, but
the final token of the line is dropped. -/
theorem valueLineSplit_four_tokens :
    valueLineSplit ("BA_ \"Description\" BO_ 100 \"Has spaces\";") =
      ["BA_", "Description", "BO_", "100"] := by
  decide

/-- C4, counterexample: a `VAL_` line with an odd number of pair tokens whose
odd token is not an integer (`VAL_ 1F4 RPM "Idle" ;` tokenizes to pair list
`["Idle"]`) makes `int(pairs[i])` raise an uncaught `ValueError` before the
caught `IndexError` is reached: ingestion aborts, but with no diagnostic
naming the signal and line number. -/
theorem malformed_val_nonint_uncaught :
    Load initState ["VAL_ 1F4 RPM \"Idle\" ;"] = .exn .valueError initState := by
  decide

/-- C5: after the completed message 500 with signal `RPM`, the line
`VAL_ 1F4 RPM 0 "Idle" 1 "Running" ;` (hexadecimal message id) attaches the
two-entry enumeration [(0, Idle), (1, Running)], in that order, to `RPM`. -/
theorem val_hex_attaches_enumeration :
    valuesView (Load initState [bo500, sgRPM, "", "VAL_ 1F4 RPM 0 \"Idle\" 1 \"Running\" ;"]) =
      [[[(0, "Idle"), (1, "Running")]]] := by
  decide

/-- C7, counterexample: with two completed messages (500 then 600), the line
`CM_ BO_ 600 SPD some comment text` attaches nothing: the unconditional
`break` on line 160 makes the lookup examine only the message at the current
iterator position (position 0), so a target at position 1 is never reached
and `SPD`'s comment stays empty. -/
theorem comment_misses_second_message :
    commentsView (Load initState (twoMsgSrc ++ ["CM_ BO_ 600 SPD some comment text"])) ≠
      [[""], ["somecommenttext"]] := by
  decide

/-- C7, amended: a `CM_` line with more than two tokens attaches the
delimiterless concatenation of tokens five onward to the matching signal when
the target message is the one at the database iterator's current position
(position 0 in a fresh load): here `RPM` of message 500 receives
`somecommenttext`. -/
theorem comment_attaches_at_iterator_position :
    commentsView (Load initState (twoMsgSrc ++ ["CM_ BO_ 500 RPM some comment text"])) =
      [["somecommenttext"], [""]] := by
  decide

/-- C8, counterexample: an attribute-schema line written with single spaces,
as the interface grammar shows it, makes `components[6]` raise an uncaught
`IndexError`: nothing is appended and `Load` crashes. -/
theorem baDef_single_space_index_error :
    Load initState ["BA_DEF_ BO_ \"Attr\" INT 0 100;"] = .exn .indexError initState ∧
    (stateOf (Load initState ["BA_DEF_ BO_ \"Attr\" INT 0 100;"]))._attributes ≠
      [("Attr", "INT", "0", "100")] := by
  exact ⟨by decide, by decide⟩

/-- C8, amended: with the double space between `BO_` and the quoted name
that the code's index comment assumes, `Load` appends exactly the tuple
(name with quotes stripped, type, min, max with the trailing semicolon
stripped) to the attribute-schema sequence. -/
theorem baDef_double_space_appends_schema :
    Load initState ["BA_DEF_ BO_  \"Attr\" INT 0 100;"] =
      .ok { _messages := [], _txNodes := [],
            _attributes := [("Attr", "INT", "0", "100")], _iter_index := 0 } := by
  decide

/-- C9: the message container is class-level shared state: `__init__` stores
only the path, so two databases loaded one after the other accumulate into
the same list, and `Messages()` of either instance returns the messages of
both sources, first load's first. -/
theorem class_level_containers_shared :
    ((stateOf (Load (stateOf (Load initState [bo500, sgRPM, ""])) [bo600, sgSPD, ""]))._messages.map
        fun m => (m._canID, m._name)) = [(500, "EngineData"), (600, "SpeedData")] ∧
    CANDatabase.Messages ⟨"first.dbc"⟩
        (stateOf (Load (stateOf (Load initState [bo500, sgRPM, ""])) [bo600, sgSPD, ""])) =
      CANDatabase.Messages ⟨"second.dbc"⟩
        (stateOf (Load (stateOf (Load initState [bo500, sgRPM, ""])) [bo600, sgSPD, ""])) := by
  exact ⟨by decide, rfl⟩

/-- C10: `__iter__` does not reset `_iter_index`, so after the first `VAL_`
line finds message 500 at position 0 (leaving the index at 1), the second
`VAL_` line for the same identifier scans only position 1 onward, exhausts,
and attaches nothing: only the first mapping is present. -/
theorem iterator_state_persists_across_lookups :
    valuesView (Load initState (twoMsgSrc ++ ["VAL_ 1F4 RPM 0 \"Idle\" ;", "VAL_ 1F4 RPM 1 \"Running\" ;"])) =
      [[[(0, "Idle")]], [[]]] := by
  decide

/-- C6, counterexample: the unresolved `VAL_` line of `srcWithUnresolved`
raises no error in either source, but its failed lookup resets the shared
iteration index to 0, so the third `VAL_` line resolves differently and the
final models differ: the model is not what it would be were the line absent. -/
theorem unresolved_val_changes_final_model :
    isOkResult (Load initState srcWithUnresolved) = true ∧
    isOkResult (Load initState srcWithoutUnresolved) = true ∧
    (stateOf (Load initState srcWithUnresolved))._messages ≠
      (stateOf (Load initState srcWithoutUnresolved))._messages := by
  exact ⟨by decide, by decide, by decide⟩

/-- Helper: a blank line while idle is a no-op that advances the line
number. -/
theorem loadLines_blank_idle (σ : DBState) (n : Nat) (rest : List String) :
    loadLines σ false none n ("" :: rest) = loadLines σ false none (n + 1) rest := rfl

/-- Helper: a run of `k` blank lines while idle advances the line number by
`k`. -/
theorem loadLines_blanks (k : Nat) : ∀ (n : Nat) (rest : List String),
    loadLines initState false none n (List.replicate k "" ++ rest) =
      loadLines initState false none (n + k) rest := by
  induction k with
  | zero => intro n rest; rfl
  | succ k ih =>
    intro n rest
    have h : List.replicate (k + 1) "" ++ rest = "" :: (List.replicate k "" ++ rest) := by
      simp [List.replicate]
    rw [h, loadLines_blank_idle, ih]
    have h2 : n + 1 + k = n + (k + 1) := by omega
    rw [h2]

/-- Helper: the odd-pairs `VAL_` line aborts the whole scan at line `n` with
the invalid-value diagnostic, whatever follows. -/
theorem loadLines_oddVal (n : Nat) (suffix : List String) :
    loadLines initState false none n (oddValLine :: suffix) =
      .valNone ("Invalid value: RPM. Found on line " ++ toString n ++ ".") initState := rfl

/-- C4, amended: for a source reaching (here: after any run of blank lines)
a `VAL_` line with an odd number of pair tokens whose value tokens are
integers, the entire ingestion aborts at that line: `Load` returns `None`
(no model) with the diagnostic naming the enumeration's subject `RPM` and
the 1-based number of the offending line.  When a value token of such a line
is not an integer, ingestion instead aborts with an uncaught exception and
no such diagnostic (see the counterexample). -/
theorem malformed_val_aborts_with_diagnostic (k : Nat) (suffix : List String) :
    Load initState (List.replicate k "" ++ oddValLine :: suffix) =
      .valNone ("Invalid value: RPM. Found on line " ++ toString (k + 1) ++ ".") initState := by
  unfold Load
  rw [loadLines_blanks]
  have h : 1 + k = k + 1 := by omega
  rw [h, loadLines_oddVal]

/-- Helper: folding the dedup-insert step over each list of a list of lists
equals folding it over the flattened list. -/
theorem foldl_subsStep_flatten (ls : List (List String)) : ∀ acc : List String,
    ls.foldl (fun a l => l.foldl subsStep a) acc = ls.flatten.foldl subsStep acc := by
  induction ls with
  | nil => intro acc; rfl
  | cons l ls ih => intro acc; simp [List.foldl_append, ih]

/-- Helper: `UpdateSubscribers` on a message whose subscribers are still
empty computes exactly the first-seen dedup of the flattened receiver
stream. -/
theorem updateSubscribers_subsOK (m : CANMessage) (h : m._subscribers = []) :
    subsOK m.UpdateSubscribers := by
  unfold subsOK CANMessage.UpdateSubscribers firstSeenDedup rxConcat
  rw [h]
  simp only [← List.foldl_map (f := CANSignal._rx_nodes) (g := fun a l => l.foldl subsStep a)]
  exact foldl_subsStep_flatten (m._signals.map CANSignal._rx_nodes) []

/-- Helper: `applyFirst` with a signal-updater that keeps `_rx_nodes`
unchanged keeps the receiving-node streams of the signal list unchanged. -/
theorem applyFirst_rx (nm : String) (f : CANSignal → CANSignal)
    (hf : ∀ s, (f s)._rx_nodes = s._rx_nodes) : ∀ sigs : List CANSignal,
    (applyFirst nm f sigs).map CANSignal._rx_nodes = sigs.map CANSignal._rx_nodes := by
  intro sigs
  induction sigs with
  | nil => rfl
  | cons s rest ih =>
    unfold applyFirst
    by_cases h : s._name = nm
    · simp [h, hf]
    · simp [h, ih]

/-- Helper: `AddValue` neither touches subscribers nor any signal's
receiving-node list, so the subscriber invariant survives. -/
theorem subsOK_AddValue (m : CANMessage) (vt : String × Int × List (Int × String))
    (h : subsOK m) : subsOK (m.AddValue vt) := by
  have hrx : rxConcat (m.AddValue vt)._signals = rxConcat m._signals := by
    show rxConcat (applyFirst vt.1 (fun s => s.SetValues vt.2.2) m._signals) = rxConcat m._signals
    unfold rxConcat
    rw [applyFirst_rx vt.1 (fun s => s.SetValues vt.2.2) fun s => rfl]
  unfold subsOK
  have hsub : (m.AddValue vt)._subscribers = m._subscribers := rfl
  rw [hsub, hrx]
  exact h

/-- Helper: `AddAttribute` touches neither signals nor subscribers. -/
theorem subsOK_AddAttribute (m : CANMessage) (a : String × String)
    (h : subsOK m) : subsOK (m.AddAttribute a) := h

/-- Helper: attaching a comment to a signal keeps the subscriber
invariant. -/
theorem subsOK_addSignalComment (m : CANMessage) (nm c : String)
    (h : subsOK m) : subsOK (m.addSignalComment nm c) := by
  have hrx : rxConcat (m.addSignalComment nm c)._signals = rxConcat m._signals := by
    show rxConcat (applyFirst nm (fun s => s.AddComment c) m._signals) = rxConcat m._signals
    unfold rxConcat
    rw [applyFirst_rx nm (fun s => s.AddComment c) fun s => rfl]
  unfold subsOK
  have hsub : (m.addSignalComment nm c)._subscribers = m._subscribers := rfl
  rw [hsub, hrx]
  exact h

/-- Helper: a message found by `scanFrom` is a member of the scanned list. -/
theorem scanFrom_mem (id : Int) : ∀ (l : List CANMessage) (j : Nat) (m : CANMessage),
    scanFrom id l = some (j, m) → m ∈ l := by
  intro l
  induction l with
  | nil => intro j m h; simp [scanFrom] at h
  | cons a rest ih =>
    intro j m h
    unfold scanFrom at h
    by_cases ha : a._canID = id
    · simp [ha] at h
      simp [h.2]
    · simp [ha, Option.map_eq_some'] at h
      obtain ⟨j0, hsc, hj⟩ := h
      exact List.mem_cons_of_mem a (ih j0 m hsc)

/-- Helper: the shared-state lookup loop preserves any per-message property
that the updater preserves. -/
theorem lookupAttach_pres (P : CANMessage → Prop) (σ : DBState) (id : Int)
    (upd : CANMessage → CANMessage)
    (hupd : ∀ m, P m → P (upd m)) (hσ : ∀ m ∈ σ._messages, P m) :
    ∀ m ∈ (lookupAttach σ id upd)._messages, P m := by
  intro m hm
  unfold lookupAttach at hm
  split at hm
  · exact hσ m hm
  · rename_i j m0 hsc
    rcases List.mem_or_eq_of_mem_set hm with h | h
    · exact hσ m h
    · subst h
      exact hupd m0 (hσ m0 (List.drop_subset _ _ (scanFrom_mem id _ j m0 hsc)))

/-- Helper: a message constructed by `_parseMessageHeader` has no
subscribers yet. -/
theorem parseMessageHeader_subscribers (line : String) (m : CANMessage)
    (h : parseMessageHeader line = .ok m) : m._subscribers = [] := by
  unfold parseMessageHeader at h
  simp only [] at h
  repeat' split at h
  any_goals exact Except.noConfusion h
  injection h with h2
  rw [← h2]

/-- Helper: the `BU_:` branch preserves the subscriber invariant. -/
theorem buStep_subsInv (σ : DBState) (b : Bool) (cm : Option CANMessage) (line : String)
    (hσ : ∀ m ∈ σ._messages, subsOK m) (hcm : cmSubsNil cm) :
    stepSubsInv (buStep σ b cm line) :=
  ⟨hσ, hcm⟩

/-- Helper: the `BO_` branch preserves the subscriber invariant: the new
message under construction has empty subscribers. -/
theorem boStep_subsInv (σ : DBState) (line : String)
    (hσ : ∀ m ∈ σ._messages, subsOK m) :
    stepSubsInv (boStep σ line) := by
  unfold boStep
  split
  · exact hσ
  · rename_i m hok
    exact ⟨hσ, parseMessageHeader_subscribers line m hok⟩

/-- Helper: the ` SG_` branch preserves the subscriber invariant: appending
a signal does not touch the subscribers of the message under construction. -/
theorem sgStep_subsInv (σ : DBState) (b : Bool) (cm : Option CANMessage) (line : String)
    (hσ : ∀ m ∈ σ._messages, subsOK m) (hcm : cmSubsNil cm) :
    stepSubsInv (sgStep σ b cm line) := by
  cases cm with
  | none => exact hσ
  | some m =>
    unfold sgStep
    cases hps : parseSignalEntry line with
    | error e => exact hσ
    | ok sig => exact ⟨hσ, hcm⟩

/-- Helper: the blank-line branch preserves the subscriber invariant: the
finalized message gets exactly the first-seen dedup of its receiver
stream. -/
theorem blankStep_subsInv (σ : DBState) (b : Bool) (cm : Option CANMessage)
    (hσ : ∀ m ∈ σ._messages, subsOK m) (hcm : cmSubsNil cm) :
    stepSubsInv (blankStep σ b cm) := by
  cases b with
  | false => exact ⟨hσ, hcm⟩
  | true =>
    cases cm with
    | none => exact hσ
    | some m =>
      refine ⟨?_, trivial⟩
      intro m' hm'
      rcases List.mem_append.mp hm' with h | h
      · exact hσ m' h
      · rw [List.mem_singleton] at h
        subst h
        exact updateSubscribers_subsOK m hcm

/-- Helper: the `VAL_` branch preserves the subscriber invariant. -/
theorem valStep_subsInv (σ : DBState) (b : Bool) (cm : Option CANMessage) (n : Nat) (line : String)
    (hσ : ∀ m ∈ σ._messages, subsOK m) (hcm : cmSubsNil cm) :
    stepSubsInv (valStep σ b cm n line) := by
  unfold valStep
  simp only []
  repeat' split
  any_goals exact hσ
  exact ⟨lookupAttach_pres subsOK σ _ _ (fun m h => subsOK_AddValue m _ h) hσ, hcm⟩

/-- Helper: the `BA_DEF_ BO_` branch preserves the subscriber invariant. -/
theorem baDefStep_subsInv (σ : DBState) (b : Bool) (cm : Option CANMessage) (line : String)
    (hσ : ∀ m ∈ σ._messages, subsOK m) (hcm : cmSubsNil cm) :
    stepSubsInv (baDefStep σ b cm line) := by
  unfold baDefStep
  simp only []
  repeat' split
  any_goals exact hσ
  exact ⟨hσ, hcm⟩

/-- Helper: the `BA_ ` branch preserves the subscriber invariant. -/
theorem baStep_subsInv (σ : DBState) (b : Bool) (cm : Option CANMessage) (line : String)
    (hσ : ∀ m ∈ σ._messages, subsOK m) (hcm : cmSubsNil cm) :
    stepSubsInv (baStep σ b cm line) := by
  unfold baStep
  simp only []
  repeat' split
  any_goals exact hσ
  exact ⟨lookupAttach_pres subsOK σ _ _ (fun m h => subsOK_AddAttribute m _ h) hσ, hcm⟩

/-- Helper: the `CM_` branch preserves the subscriber invariant. -/
theorem cmStep_subsInv (σ : DBState) (b : Bool) (cm : Option CANMessage) (line : String)
    (hσ : ∀ m ∈ σ._messages, subsOK m) (hcm : cmSubsNil cm) :
    stepSubsInv (cmStep σ b cm line) := by
  unfold cmStep
  simp only []
  repeat' split
  · exact hσ
  · exact hσ
  · exact hσ
  · exact hσ
  · refine ⟨?_, hcm⟩
    intro m' hm'
    rcases List.mem_or_eq_of_mem_set hm' with h | h
    · exact hσ m' h
    · subst h
      exact subsOK_addSignalComment _ _ _ (hσ _ (List.get_mem _ _ _))
  · exact ⟨hσ, hcm⟩
  · exact ⟨hσ, hcm⟩

/-- Helper: every branch of the line dispatcher preserves the subscriber
invariant. -/
theorem processLine_subsInv (σ : DBState) (b : Bool) (cm : Option CANMessage) (n : Nat) (line : String)
    (hσ : ∀ m ∈ σ._messages, subsOK m) (hcm : cmSubsNil cm) :
    stepSubsInv (processLine σ b cm n line) := by
  unfold processLine
  repeat' split
  · exact buStep_subsInv σ b cm line hσ hcm
  · exact boStep_subsInv σ line hσ
  · exact sgStep_subsInv σ b cm line hσ hcm
  · exact blankStep_subsInv σ b cm hσ hcm
  · exact valStep_subsInv σ b cm n line hσ hcm
  · exact baDefStep_subsInv σ b cm line hσ hcm
  · exact baStep_subsInv σ b cm line hσ hcm
  · exact cmStep_subsInv σ b cm line hσ hcm
  · exact ⟨hσ, hcm⟩

/-- Helper: across the whole line loop, every finalized message satisfies
the subscriber invariant. -/
theorem loadLines_subsInv : ∀ (lines : List String) (σ : DBState) (b : Bool)
    (cm : Option CANMessage) (n : Nat),
    (∀ m ∈ σ._messages, subsOK m) → cmSubsNil cm →
    ∀ m ∈ (stateOf (loadLines σ b cm n lines))._messages, subsOK m := by
  intro lines
  induction lines with
  | nil => intro σ b cm n hσ hcm m hm; exact hσ m hm
  | cons line rest ih =>
    intro σ b cm n hσ hcm
    have hstep := processLine_subsInv σ b cm n line hσ hcm
    unfold loadLines
    cases hp : processLine σ b cm n line with
    | cont σ2 b2 cm2 =>
      rw [hp] at hstep
      exact ih σ2 b2 cm2 (n + 1) hstep.1 hstep.2
    | halt r =>
      rw [hp] at hstep
      exact hstep

/-- C3: every message in the model produced by `Load` has as its subscriber
list exactly the union of its signals' receiving-node name lists, in
first-seen order with duplicates removed; the set is assigned once, by
`UpdateSubscribers`, in the blank-line branch that finalizes the message
(the only branch of the loop that writes `_subscribers`). -/
theorem subscribers_are_firstSeen_union (src : List String) (m : CANMessage)
    (hm : m ∈ (stateOf (Load initState src))._messages) :
    m._subscribers = firstSeenDedup (rxConcat m._signals) :=
  loadLines_subsInv src initState false none 1 (by intro m' hm'; simp [initState] at hm') trivial m hm

/-- C3, witness: the scenario message of C1 instantiates the subscriber
theorem. -/
theorem subscribers_are_firstSeen_union_witness :
    engineMsg ∈ (stateOf (Load initState [bo500, sgRPM, ""]))._messages ∧
    engineMsg._subscribers = firstSeenDedup (rxConcat engineMsg._signals) :=
  ⟨by decide, subscribers_are_firstSeen_union [bo500, sgRPM, ""] engineMsg (by decide)⟩

/-- Helper: a successful boolean prefix test decomposes the list. -/
theorem listIsPrefix_exists : ∀ (p l : List Char), listIsPrefix p l = true → ∃ t, l = p ++ t := by
  intro p
  induction p with
  | nil => intro l _; exact ⟨l, rfl⟩
  | cons a as ih =>
    intro l h
    cases l with
    | nil => simp [listIsPrefix] at h
    | cons b bs =>
      unfold listIsPrefix at h
      by_cases hab : a = b
      · rw [if_pos hab] at h
        obtain ⟨t, ht⟩ := ih bs h
        exact ⟨t, by rw [hab, ht, List.cons_append]⟩
      · rw [if_neg hab] at h
        exact absurd h (by simp)

/-- Helper: scanning a list in which no message carries the wanted id finds
nothing. -/
theorem scanFrom_eq_none (id : Int) : ∀ (l : List CANMessage),
    (∀ m ∈ l, ¬ m._canID = id) → scanFrom id l = none := by
  intro l
  induction l with
  | nil => intro _; rfl
  | cons a rest ih =>
    intro h
    unfold scanFrom
    rw [if_neg (h a (List.mem_cons_self a rest))]
    rw [ih fun m hm => h m (List.mem_cons_of_mem a hm)]
    rfl

/-- Helper: a lookup whose id matches no message leaves every container
untouched and only resets the persistent iteration index to 0 (the
exhaustion branch of `__next__`). -/
theorem lookupAttach_no_match (σ : DBState) (id : Int) (upd : CANMessage → CANMessage)
    (hno : ∀ m ∈ σ._messages, ¬ m._canID = id) :
    lookupAttach σ id upd = { σ with _iter_index := 0 } := by
  unfold lookupAttach
  rw [scanFrom_eq_none id _ fun m hm => hno m (List.drop_subset _ _ hm)]

/-- Helper: a line starting with `VAL_` is dispatched to the `VAL_`
branch. -/
theorem val_dispatch (σ : DBState) (b : Bool) (cm : Option CANMessage) (n : Nat) (line : String)
    (hv : pyStartsWith line ("VAL_") = true) :
    processLine σ b cm n line = valStep σ b cm n line := by
  obtain ⟨t, ht⟩ := listIsPrefix_exists _ _ hv
  have hbu : pyStartsWith line ("BU_:") = false := by unfold pyStartsWith; rw [ht]; rfl
  have hbo : pyStartsWith line ("BO_") = false := by unfold pyStartsWith; rw [ht]; rfl
  have hsg : pyStartsWith line (" SG_") = false := by unfold pyStartsWith; rw [ht]; rfl
  have hne : ¬ line = "" := by
    intro e
    rw [e] at ht
    simp at ht
  unfold processLine
  simp [hbu, hbo, hsg, hne, hv]

/-- Helper: a line starting with `BA_ ` is dispatched to the attribute-value
branch. -/
theorem ba_dispatch (σ : DBState) (b : Bool) (cm : Option CANMessage) (n : Nat) (line : String)
    (hv : pyStartsWith line ("BA_ ") = true) :
    processLine σ b cm n line = baStep σ b cm line := by
  obtain ⟨t, ht⟩ := listIsPrefix_exists _ _ hv
  have hbu : pyStartsWith line ("BU_:") = false := by unfold pyStartsWith; rw [ht]; rfl
  have hbo : pyStartsWith line ("BO_") = false := by unfold pyStartsWith; rw [ht]; rfl
  have hsg : pyStartsWith line (" SG_") = false := by unfold pyStartsWith; rw [ht]; rfl
  have hva : pyStartsWith line ("VAL_") = false := by unfold pyStartsWith; rw [ht]; rfl
  have hbd : pyStartsWith line ("BA_DEF_ BO_") = false := by unfold pyStartsWith; rw [ht]; rfl
  have hne : ¬ line = "" := by
    intro e
    rw [e] at ht
    simp at ht
  unfold processLine
  simp [hbu, hbo, hsg, hva, hbd, hne, hv]

/-- Helper: one unfolding step of the line loop. -/
theorem loadLines_cons (σ : DBState) (b : Bool) (cm : Option CANMessage) (n : Nat)
    (line : String) (rest : List String) :
    loadLines σ b cm n (line :: rest) =
      match processLine σ b cm n line with
      | .cont σ2 b2 cm2 => loadLines σ2 b2 cm2 (n + 1) rest
      | .halt r => r := rfl

/-- C6, amended: a well-formed enumeration or attribute-value line whose
message identifier matches no message in the model is dropped without
mutating any message, signal, attribute or comment, and `Load` neither
raises nor aborts; but the failed lookup exhausts the persistent iterator
and resets its index to 0, so the final model can still differ from the
line-absent model (see the counterexample). -/
theorem unresolved_lookup_drops_line :
    (∀ (σ : DBState) (b : Bool) (cm : Option CANMessage) (n : Nat) (line : String)
       (rest : List String) (nm hid : String) (id : Int) (prs : List (Int × String)),
       pyStartsWith line ("VAL_") = true →
       (valueLineSplit line).get? 2 = some nm →
       (valueLineSplit line).get? 1 = some hid →
       pyIntHex? hid = some id →
       buildPairs ((valueLineSplit line).drop 3) = PairsResult.ok prs →
       (∀ m ∈ σ._messages, ¬ m._canID = id) →
       loadLines σ b cm n (line :: rest) =
         loadLines { σ with _iter_index := 0 } b cm (n + 1) rest) ∧
    (∀ (σ : DBState) (b : Bool) (cm : Option CANMessage) (n : Nat) (line : String)
       (rest : List String) (c1 c3 : String) (id : Int) (c4 : String),
       pyStartsWith line ("BA_ ") = true →
       (pySplit ' ' line).get? 1 = some c1 →
       (pySplit ' ' line).get? 3 = some c3 →
       pyInt? c3 = some id →
       (pySplit ' ' line).get? 4 = some c4 →
       (∀ m ∈ σ._messages, ¬ m._canID = id) →
       loadLines σ b cm n (line :: rest) =
         loadLines { σ with _iter_index := 0 } b cm (n + 1) rest) := by
  constructor
  · intro σ b cm n line rest nm hid id prs hv h2 h1 hx hp hno
    have hv2 : valStep σ b cm n line =
        .cont (lookupAttach σ id fun m => m.AddValue (nm, id, prs)) b cm := by
      simp only [valStep, h2, h1, hx, hp]
    rw [loadLines_cons, val_dispatch σ b cm n line hv, hv2]
    show loadLines (lookupAttach σ id fun m => m.AddValue (nm, id, prs)) b cm (n + 1) rest = _
    rw [lookupAttach_no_match σ id _ hno]
  · intro σ b cm n line rest c1 c3 id c4 hv h1 h3 hi h4 hno
    have hb2 : baStep σ b cm line =
        .cont (lookupAttach σ id fun m => m.AddAttribute (pyStrip '"' c1, pyRstrip ';' c4)) b cm := by
      simp only [baStep, h1, h3, hi, h4]
    rw [loadLines_cons, ba_dispatch σ b cm n line hv, hb2]
    show loadLines (lookupAttach σ id fun m => m.AddAttribute (pyStrip '"' c1, pyRstrip ';' c4)) b cm (n + 1) rest = _
    rw [lookupAttach_no_match σ id _ hno]

/-- C6, amended, witness: on a one-message model (identifier 500), an
unresolved `VAL_` line for id 0x3E8 = 1000 and an unresolved `BA_` line for
id 999 are both dropped, leaving only the index reset. -/
theorem unresolved_lookup_drops_line_witness :
    (loadLines { _messages := [engineMsg], _txNodes := [], _attributes := [], _iter_index := 0 }
        false none 1 ["VAL_ 3E8 XXX 0 \"Nah\" ;"] =
      loadLines { _messages := [engineMsg], _txNodes := [], _attributes := [], _iter_index := 0 }
        false none 2 []) ∧
    (loadLines { _messages := [engineMsg], _txNodes := [], _attributes := [], _iter_index := 0 }
        false none 1 ["BA_ \"X\" BO_ 999 5;"] =
      loadLines { _messages := [engineMsg], _txNodes := [], _attributes := [], _iter_index := 0 }
        false none 2 []) :=
  ⟨unresolved_lookup_drops_line.1 _ false none 1 _ [] "XXX" "3E8" 1000 [(0, "Nah")]
     (by decide) (by decide) (by decide) (by decide) (by decide) (by decide),
   unresolved_lookup_drops_line.2 _ false none 1 _ [] "\"X\"" "999" 999 "5;"
     (by decide) (by decide) (by decide) (by decide) (by decide) (by decide)⟩
